import Mathlib

/-!
Verification of the wolf-comm portal client (`wolf_comm/wolf_client.py`).

The development shallowly embeds the client's core logic:
* the parameter descriptor mapper `_map_parameter` and view mapper `_map_view`,
* the flattening/deduplication pass of `fetch_parameters`,
* the retrying request pipeline `__request` (state passing plus an event trace),
* the value-endpoint processing of `fetch_value`.

Python dictionaries are embedded as association lists with last-write-wins
insertion, mirroring `dict(...)` and the `{**a, **b}` merge.
-/

/-- Modelled from the spec: the unit constants live in `wolf_comm/constants.py`,
which is not part of the provided sources; the spec names a Celsius-temperature
unit, a bar unit, a percent unit and an hour unit, so they are modelled as four
distinct unit strings. Only their identity and distinctness are used. -/
def CELSIUS_TEMPERATURE : String := "Celsius"

/-- Modelled from the spec: the bar unit string (see `CELSIUS_TEMPERATURE`). -/
def BAR : String := "Bar"

/-- Modelled from the spec: the percent unit string (see `CELSIUS_TEMPERATURE`). -/
def PERCENTAGE : String := "Percentage"

/-- Modelled from the spec: the hour unit string (see `CELSIUS_TEMPERATURE`). -/
def HOUR : String := "Hour"

/-- Modelled from the spec: the "failed to read parameter" sentinel
`ERROR_READ_PARAMETER` from `wolf_comm/constants.py` (not under the provided
sources). Only equality with it is observable. -/
def ERROR_READ_PARAMETER : String := "ReadParameterValues error"

/-- Python dict insertion `d[k] = v`: replace the value in place when the key is
present, otherwise append the pair at the end. -/
def dictSet {α β : Type} [DecidableEq α] (d : List (α × β)) (k : α) (v : β) :
    List (α × β) :=
  if (d.map Prod.fst).contains k then
    d.map (fun p => if p.1 = k then (k, v) else p)
  else
    d ++ [(k, v)]

/-- Python `dict(pairs)`: successive insertion, later pairs win on key collision. -/
def toDict {α β : Type} [DecidableEq α] (l : List (α × β)) : List (α × β) :=
  l.foldl (fun d p => dictSet d p.1 p.2) []

/-- Python `\x7b**a, **b\x7d`: entries of `a` then `b`, values of `b` winning on
key collision. -/
def dictMerge {α β : Type} [DecidableEq α] (a b : List (α × β)) : List (α × β) :=
  toDict (a ++ b)

/-- Python `d.get(k)` / `k in d` lookup on the association-list embedding. -/
def dictGet {α β : Type} [DecidableEq α] (d : List (α × β)) (k : α) : Option β :=
  (d.find? (fun p => decide (p.1 = k))).map Prod.snd

/-- One entry of a selectable-items list of a raw descriptor
(`Value` / `DisplayText` fields). -/
structure RawListItem where
  value : Int
  display_text : String
deriving DecidableEq, Repr

/-- The `ListItem` data holder of `wolf_comm/models.py`: a (raw value, display
text) pair. -/
structure ListItem where
  value : Int
  display_text : String
deriving DecidableEq, Repr

/-- A raw parameter descriptor as read by `_map_parameter`: `ValueId`, `Name`
and `ParameterId` are accessed unconditionally, `Unit` and `ListItems` are
tested for presence. -/
structure RawParam where
  value_id : Nat
  name : String
  parameter_id : Nat
  unit : Option String
  list_items : Option (List RawListItem)
deriving DecidableEq, Repr

/-- The `Parameter` data holders of `wolf_comm/models.py` as a tagged union:
`SimpleParameter`, `Temperature`, `Pressure`, `PercentageParameter`,
`HoursParameter` and `ListItemParameter` all carry the same identity fields. -/
inductive Parameter where
  | simple (value_id : Nat) (name : String) (parent : String) (parameter_id : Nat)
  | temperature (value_id : Nat) (name : String) (parent : String) (parameter_id : Nat)
  | pressure (value_id : Nat) (name : String) (parent : String) (parameter_id : Nat)
  | percentage (value_id : Nat) (name : String) (parent : String) (parameter_id : Nat)
  | hours (value_id : Nat) (name : String) (parent : String) (parameter_id : Nat)
  | listItems (value_id : Nat) (name : String) (parent : String)
      (items : List ListItem) (parameter_id : Nat)
deriving DecidableEq, Repr

def Parameter.value_id : Parameter → Nat
  | .simple i _ _ _ => i
  | .temperature i _ _ _ => i
  | .pressure i _ _ _ => i
  | .percentage i _ _ _ => i
  | .hours i _ _ _ => i
  | .listItems i _ _ _ _ => i

def Parameter.name : Parameter → String
  | .simple _ n _ _ => n
  | .temperature _ n _ _ => n
  | .pressure _ n _ _ => n
  | .percentage _ n _ _ => n
  | .hours _ n _ _ => n
  | .listItems _ n _ _ _ => n

def Parameter.parent : Parameter → String
  | .simple _ _ p _ => p
  | .temperature _ _ p _ => p
  | .pressure _ _ p _ => p
  | .percentage _ _ p _ => p
  | .hours _ _ p _ => p
  | .listItems _ _ p _ _ => p

/-- `WolfClient._map_parameter`: classify one raw descriptor. A present unit is
checked against the four known unit constants; an unknown unit falls through to
the final `SimpleParameter` return (skipping the `elif LIST_ITEMS` branch). -/
def map_parameter (parameter : RawParam) (parent : String) : Parameter :=
  let value_id := parameter.value_id
  let name := parameter.name
  let parameter_id := parameter.parameter_id
  match parameter.unit with
  | some unit =>
    if unit = CELSIUS_TEMPERATURE then
      Parameter.temperature value_id name parent parameter_id
    else if unit = BAR then
      Parameter.pressure value_id name parent parameter_id
    else if unit = PERCENTAGE then
      Parameter.percentage value_id name parent parameter_id
    else if unit = HOUR then
      Parameter.hours value_id name parent parameter_id
    else
      Parameter.simple value_id name parent parameter_id
  | none =>
    match parameter.list_items with
    | some lis =>
        Parameter.listItems value_id name parent
          (lis.map (fun li => ListItem.mk li.value li.display_text)) parameter_id
    | none => Parameter.simple value_id name parent parameter_id

/-- One entry of the `parameters` array of a schema-diagram config device:
`valueId` is always read, `unit` is tested for presence. -/
structure SvgEntry where
  valueId : Nat
  unit : Option String
deriving DecidableEq, Repr

/-- One element of the `SVGHeatingSchemaConfigDevices` array. -/
structure SvgDevice where
  parameters : List SvgEntry
deriving DecidableEq, Repr, Inhabited

/-- A raw tab view: `TabName` and `ParameterDescriptors` are always read,
the schema-diagram block `SVGHeatingSchemaConfigDevices` is tested for
presence. -/
structure RawView where
  tab_name : String
  parameter_descriptors : List RawParam
  svg_heating_schema_config_devices : Option (List SvgDevice)
deriving DecidableEq, Repr

/-- The value id → unit lookup `_map_view` builds from the first config device
of the schema-diagram block: pairs for the entries that carry a unit, collected
into a Python dict (later entries win on a duplicated value id). The source
indexes `[0]`; an empty device list is a runtime error there, modelled by the
default device with no parameters. -/
def svgUnits (devices : List SvgDevice) : List (Nat × String) :=
  toDict (devices.headI.parameters.filterMap
    (fun u => u.unit.map (fun un => (u.valueId, un))))

/-- `WolfClient._map_view`: when the schema-diagram block is present, inject
the looked-up unit into each matching descriptor before mapping; otherwise map
the descriptors directly. -/
def map_view (view : RawView) : List Parameter :=
  match view.svg_heating_schema_config_devices with
  | some devices =>
      let units := svgUnits devices
      view.parameter_descriptors.map (fun param =>
        match dictGet units param.value_id with
        | some un => map_parameter { param with unit := some un } view.tab_name
        | none => map_parameter param view.tab_name)
  | none =>
      view.parameter_descriptors.map (fun p => map_parameter p view.tab_name)

/-- The inner loop of the flattening pass of `fetch_parameters`: walk one
sublist with the global `distinct_ids` and the per-sublist `distinct_names`,
returning the parameters appended to `flattened` by this sublist together with
the grown `distinct_ids`. -/
def flattenSub : List Parameter → List Nat → List String → List Parameter × List Nat
  | [], ids, _ => ([], ids)
  | val :: rest, ids, names =>
    if val.value_id ∉ ids ∧ val.name ∉ names then
      let r := flattenSub rest (ids ++ [val.value_id]) (names ++ [val.name])
      (val :: r.1, r.2)
    else
      flattenSub rest ids names

/-- The outer loop of the flattening pass: `distinct_ids` persists across
sublists while `distinct_names` is re-initialised to `[]` for every sublist. -/
def flattenViews : List (List Parameter) → List Nat → List Parameter
  | [], _ => []
  | sub :: rest, ids =>
    let r := flattenSub sub ids []
    r.1 ++ flattenViews rest r.2

/-- The pure core of `WolfClient.fetch_parameters` (lines 114-127): map every
tab view, reverse the list of per-view results, then deduplicate while
flattening. -/
def fetch_parameters_flatten (tab_views : List RawView) : List Parameter :=
  let result := (tab_views.map map_view).reverse
  flattenViews result []

/-- The token pair held by `WolfClient.tokens`; `wolf_comm/token_auth.py` is
not under the provided sources, so per the spec a token carries an access token
string and exposes an expiry check, embedded as a boolean field. -/
structure Tokens where
  access_token : String
  expired : Bool
deriving DecidableEq, Repr

/-- The expiry check `Tokens.is_expired()` consumed by `__request`. -/
def Tokens.is_expired (t : Tokens) : Bool := t.expired

/-- The mutable state of a `WolfClient` instance. -/
structure ClientState where
  tokens : Option Tokens
  session_id : Option Nat
  last_access : Option String
  last_failed : Bool
  last_session_refesh : Option Int
deriving DecidableEq, Repr

/-- An HTTP response as consumed by `__request`: a status code and the parsed
JSON body (kept abstract as a string). -/
structure Response where
  status : Nat
  body : String
deriving DecidableEq, Repr

/-- The outcome of one `__execute` call: a response, or a raised `FetchFailed`
(the only exception the retry path of `__request` catches). -/
inductive ExecResult where
  | ok (resp : Response)
  | fetchFailed
deriving DecidableEq, Repr

/-- The external effects one `__request` run can perform, in order. -/
inductive Event where
  | authToken (t : Tokens)
  | createSession (sid : Nat)
  | updateSession (access_token : String) (sid : Option Nat)
  | execute (headers : List (String × String)) (r : ExecResult)
deriving DecidableEq, Repr

def Event.isExecute : Event → Bool
  | .execute _ _ => true
  | _ => false

def Event.isAuthToken : Event → Bool
  | .authToken _ => true
  | _ => false

def Event.isCreateSession : Event → Bool
  | .createSession _ => true
  | _ => false

def Event.isUpdateSession : Event → Bool
  | .updateSession _ _ => true
  | _ => false

/-- The environment one `__request` run observes: the current wall-clock time,
the tokens and session ids the Authenticator and Session Opener would return
(first and, for the retry path, second call), and the two possible transport
results. -/
structure ReqEnv where
  now : Int
  authToken : Tokens
  sessionId : Nat
  authToken2 : Tokens
  sessionId2 : Nat
  resp1 : ExecResult
  resp2 : ExecResult
deriving DecidableEq, Repr

/-- Modelled from the spec: `wolf_comm/helpers.py` is not under the provided
sources; the spec calls for a bearer-auth header, a single-entry dict keyed by
the authorization header name. -/
def bearer_header (access_token : String) : List (String × String) :=
  [("Authorization", "Bearer " ++ access_token)]

/-- The guard of lines 57: `self.tokens is None or self.tokens.is_expired()`. -/
def needAuth (st : ClientState) : Bool :=
  match st.tokens with
  | none => true
  | some t => t.is_expired

/-- The guard of line 67: `self.last_session_refesh is None or
self.last_session_refesh <= datetime.datetime.now()`. -/
def fireKeepalive (st : ClientState) (now : Int) : Bool :=
  match st.last_session_refesh with
  | none => true
  | some t => decide (t ≤ now)

/-- The access token `self.tokens.access_token`; `__request` only reads it
after `tokens` is known to be set. -/
def accessToken (st : ClientState) : String :=
  match st.tokens with
  | some t => t.access_token
  | none => ""

/-- Lines 60-65: the bearer header, merged under any caller-supplied headers
(caller values win on key collision). -/
def buildHeaders (access_token : String) (caller : Option (List (String × String))) :
    List (String × String) :=
  match caller with
  | none => bearer_header access_token
  | some h => dictMerge (bearer_header access_token) (toDict h)

/-- `WolfClient.__request` (lines 56-86), embedded as a state-and-trace
transformer: result is (outcome, new client state, event trace). A raised
`FetchFailed` is the `Except.error` outcome. `__authorize_and_session` is the
assignment of fresh tokens plus a fresh session id together with its two
events. -/
def request (st0 : ClientState) (env : ReqEnv)
    (caller : Option (List (String × String))) :
    Except Unit String × ClientState × List Event :=
  let na := needAuth st0
  let st1 : ClientState :=
    bif na then { st0 with tokens := some env.authToken, session_id := some env.sessionId }
    else st0
  let tr1 : List Event :=
    bif na then [Event.authToken env.authToken, Event.createSession env.sessionId]
    else []
  let headers := buildHeaders (accessToken st1) caller
  let fk := fireKeepalive st1 env.now
  let st2 : ClientState :=
    bif fk then { st1 with last_session_refesh := some (env.now + 60) } else st1
  let tr2 : List Event :=
    bif fk then [Event.updateSession (accessToken st1) st1.session_id] else []
  match env.resp1 with
  | ExecResult.fetchFailed =>
      (Except.error (), st2, tr1 ++ tr2 ++ [Event.execute headers ExecResult.fetchFailed])
  | ExecResult.ok resp =>
      if resp.status = 401 ∨ resp.status = 500 then
        let st3 : ClientState :=
          { st2 with tokens := some env.authToken2, session_id := some env.sessionId2 }
        let headers2 := dictMerge (bearer_header (accessToken st3)) headers
        let trPre := tr1 ++ tr2 ++ [Event.execute headers (ExecResult.ok resp),
          Event.authToken env.authToken2, Event.createSession env.sessionId2]
        match env.resp2 with
        | ExecResult.fetchFailed =>
            (Except.error (), { st3 with last_failed := true },
             trPre ++ [Event.execute headers2 ExecResult.fetchFailed])
        | ExecResult.ok r2 =>
            (Except.ok r2.body, st3, trPre ++ [Event.execute headers2 (ExecResult.ok r2)])
      else
        (Except.ok resp.body, { st2 with last_failed := false },
         tr1 ++ tr2 ++ [Event.execute headers (ExecResult.ok resp)])

/-- Whether a `__request` run performed the session keepalive call. -/
def hasKeepalive (tr : List Event) : Bool :=
  tr.any Event.isUpdateSession

/-- The keepalive firing times of a sequence of requests issued from an initial
client state, threading the client state through the runs. -/
def keepaliveTimes (st : ClientState) : List ReqEnv → List Int
  | [] => []
  | e :: rest =>
      (bif hasKeepalive (request st e none).2.2 then [e.now] else []) ++
      keepaliveTimes (request st e none).2.1 rest

/-- One entry of the `Values` array of a values-endpoint response: `ValueId`
and `State` are read unconditionally, `Value` is tested for presence. -/
structure RawValue where
  value_id : Nat
  value : Option Int
  state : Nat
deriving DecidableEq, Repr

/-- The `Value` data holder of `wolf_comm/models.py`. -/
structure Value where
  value_id : Nat
  value : Int
  state : Nat
deriving DecidableEq, Repr

/-- A parsed values-endpoint response body as read by `fetch_value`:
`ErrorCode`, `ErrorType` and `ErrorMessage` are tested for presence,
`LastAccess` and `Values` are accessed unconditionally on the success path. -/
structure ValuesResponse where
  error_code : Option Nat
  error_type : Option Nat
  error_message : Option String
  last_access : Option String
  values : Option (List RawValue)
deriving DecidableEq, Repr

/-- The observable outcome of the response-processing tail of `fetch_value`:
the two raised domain errors, a `KeyError` for a success payload missing the
fields the source reads unconditionally, or the produced value records. -/
inductive FetchValueResult where
  | parameterReadError
  | fetchFailed
  | keyError
  | ok (values : List Value)
deriving DecidableEq, Repr

/-- `WolfClient.fetch_value` lines 154-160: the handling of a parsed
values-endpoint response, including the update of `self.last_access`. -/
def fetch_value_step (st : ClientState) (res : ValuesResponse) :
    FetchValueResult × ClientState :=
  if res.error_code.isSome ∨ res.error_type.isSome then
    if res.error_message = some ERROR_READ_PARAMETER then
      (FetchValueResult.parameterReadError, st)
    else
      (FetchValueResult.fetchFailed, st)
  else
    match res.last_access, res.values with
    | some la, some vs =>
        (FetchValueResult.ok (vs.filterMap
           (fun v => v.value.map (fun x => Value.mk v.value_id x v.state))),
         { st with last_access := some la })
    | _, _ => (FetchValueResult.keyError, st)

/-! ## Helper lemmas on the dictionary embedding -/

theorem dictSet_mem {α β : Type} [DecidableEq α] (d : List (α × β)) (k : α) (v : β) :
    ∀ p ∈ dictSet d k v, p ∈ d ∨ p = (k, v) := by
  intro p hp
  unfold dictSet at hp
  split at hp
  · rcases List.mem_map.mp hp with ⟨q, hq, hqe⟩
    by_cases h : q.1 = k
    · rw [if_pos h] at hqe
      exact Or.inr hqe.symm
    · rw [if_neg h] at hqe
      exact Or.inl (hqe ▸ hq)
  · rcases List.mem_append.mp hp with h | h
    · exact Or.inl h
    · exact Or.inr (List.mem_singleton.mp h)

theorem toDictFold_mem {α β : Type} [DecidableEq α] :
    ∀ (l d : List (α × β)) (p : α × β),
      p ∈ l.foldl (fun d q => dictSet d q.1 q.2) d → p ∈ d ∨ p ∈ l := by
  intro l
  induction l with
  | nil =>
    intro d p hp
    exact Or.inl hp
  | cons q rest ih =>
    intro d p hp
    rcases ih (dictSet d q.1 q.2) p hp with h | h
    · rcases dictSet_mem d q.1 q.2 p h with h' | h'
      · exact Or.inl h'
      · exact Or.inr (by simp [h'])
    · exact Or.inr (List.mem_cons_of_mem q h)

theorem toDict_mem {α β : Type} [DecidableEq α] (l : List (α × β)) (p : α × β)
    (hp : p ∈ toDict l) : p ∈ l := by
  rcases toDictFold_mem l [] p hp with h | h
  · cases h
  · exact h

theorem dictGet_mem {α β : Type} [DecidableEq α] (d : List (α × β)) (k : α) (v : β)
    (h : dictGet d k = some v) : (k, v) ∈ d := by
  unfold dictGet at h
  rcases Option.map_eq_some'.mp h with ⟨p, hfind, hv⟩
  have hk : p.1 = k := by
    have := List.find?_some hfind
    exact of_decide_eq_true this
  have hmem := List.mem_of_find?_eq_some hfind
  have : p = (k, v) := by
    cases p
    simp_all
  exact this ▸ hmem

/-! ## Helper lemmas on the descriptor mapper -/

theorem map_parameter_value_id (p : RawParam) (parent : String) :
    (map_parameter p parent).value_id = p.value_id := by
  unfold map_parameter
  cases p.unit with
  | none => cases p.list_items <;> rfl
  | some u =>
    dsimp only
    split_ifs <;> rfl

theorem map_parameter_name (p : RawParam) (parent : String) :
    (map_parameter p parent).name = p.name := by
  unfold map_parameter
  cases p.unit with
  | none => cases p.list_items <;> rfl
  | some u =>
    dsimp only
    split_ifs <;> rfl

theorem map_parameter_parent (p : RawParam) (parent : String) :
    (map_parameter p parent).parent = parent := by
  unfold map_parameter
  cases p.unit with
  | none => cases p.list_items <;> rfl
  | some u =>
    dsimp only
    split_ifs <;> rfl

/-! ## Claim C6: descriptor classification priority -/

/-- Claim C6: for every raw descriptor the mapper produces exactly one variant
by priority: a present Celsius unit gives Temperature, bar gives Pressure,
percent gives Percentage, hour gives Hours, and any other present unit gives a
Simple parameter even if list items are present; otherwise a present item list
gives a ListItem-backed parameter with the (raw value, display text) pairs in
order; otherwise a Simple parameter. -/
theorem c6_map_parameter_priority (p : RawParam) (parent : String) :
    (p.unit = some CELSIUS_TEMPERATURE →
       map_parameter p parent = Parameter.temperature p.value_id p.name parent p.parameter_id) ∧
    (p.unit = some BAR →
       map_parameter p parent = Parameter.pressure p.value_id p.name parent p.parameter_id) ∧
    (p.unit = some PERCENTAGE →
       map_parameter p parent = Parameter.percentage p.value_id p.name parent p.parameter_id) ∧
    (p.unit = some HOUR →
       map_parameter p parent = Parameter.hours p.value_id p.name parent p.parameter_id) ∧
    (∀ u, p.unit = some u → u ≠ CELSIUS_TEMPERATURE → u ≠ BAR → u ≠ PERCENTAGE → u ≠ HOUR →
       map_parameter p parent = Parameter.simple p.value_id p.name parent p.parameter_id) ∧
    (∀ lis, p.unit = none → p.list_items = some lis →
       map_parameter p parent = Parameter.listItems p.value_id p.name parent
         (lis.map (fun li => ListItem.mk li.value li.display_text)) p.parameter_id) ∧
    (p.unit = none → p.list_items = none →
       map_parameter p parent = Parameter.simple p.value_id p.name parent p.parameter_id) := by
  have d1 : ¬ (BAR = CELSIUS_TEMPERATURE) := by decide
  have d2 : ¬ (PERCENTAGE = CELSIUS_TEMPERATURE) := by decide
  have d3 : ¬ (PERCENTAGE = BAR) := by decide
  have d4 : ¬ (HOUR = CELSIUS_TEMPERATURE) := by decide
  have d5 : ¬ (HOUR = BAR) := by decide
  have d6 : ¬ (HOUR = PERCENTAGE) := by decide
  refine ⟨?_, ?_, ?_, ?_, ?_, ?_, ?_⟩
  · intro h
    simp [map_parameter, h]
  · intro h
    simp [map_parameter, h, d1]
  · intro h
    simp [map_parameter, h, d2, d3]
  · intro h
    simp [map_parameter, h, d4, d5, d6]
  · intro u h h1 h2 h3 h4
    simp [map_parameter, h, h1, h2, h3, h4]
  · intro lis h h2
    simp [map_parameter, h, h2]
  · intro h h2
    simp [map_parameter, h, h2]

/-- Witness for C6 at a concrete descriptor: a bar-unit descriptor maps to a
Pressure parameter. -/
theorem c6_map_parameter_priority_witness :
    map_parameter ⟨1, "n", 2, some BAR, none⟩ "t" = Parameter.pressure 1 "n" "t" 2 :=
  (c6_map_parameter_priority ⟨1, "n", 2, some BAR, none⟩ "t").2.1 rfl

/-! ## Claim C7: schema-diagram unit injection -/

/-- Claim C7: for a view carrying the schema-diagram block, every binding of
the value id → unit lookup stems from a block parameter entry that carries that
unit; every descriptor is mapped with the looked-up unit injected when its
value id matches; in particular a descriptor with no unit whose value id maps
to the bar unit is mapped to a Pressure parameter. -/
theorem c7_svg_unit_lookup (view : RawView) (devices : List SvgDevice)
    (hv : view.svg_heating_schema_config_devices = some devices) :
    (∀ i u, dictGet (svgUnits devices) i = some u →
       ∃ d ∈ devices, ∃ e ∈ d.parameters, e.valueId = i ∧ e.unit = some u) ∧
    (map_view view = view.parameter_descriptors.map (fun p =>
       match dictGet (svgUnits devices) p.value_id with
       | some un => map_parameter { p with unit := some un } view.tab_name
       | none => map_parameter p view.tab_name)) ∧
    (∀ p ∈ view.parameter_descriptors, p.unit = none →
       dictGet (svgUnits devices) p.value_id = some BAR →
       Parameter.pressure p.value_id p.name view.tab_name p.parameter_id ∈ map_view view) := by
  have hshape : map_view view = view.parameter_descriptors.map (fun p =>
       match dictGet (svgUnits devices) p.value_id with
       | some un => map_parameter { p with unit := some un } view.tab_name
       | none => map_parameter p view.tab_name) := by
    simp [map_view, hv]
  refine ⟨?_, hshape, ?_⟩
  · intro i u hget
    have hmem := dictGet_mem _ _ _ hget
    have hmem2 := toDict_mem _ _ hmem
    rcases List.mem_filterMap.mp hmem2 with ⟨e, he, hfe⟩
    cases devices with
    | nil => exact absurd he (List.not_mem_nil e)
    | cons d ds =>
      refine ⟨d, List.mem_cons_self d ds, e, he, ?_⟩
      cases heu : e.unit with
      | none =>
        rw [heu] at hfe
        simp at hfe
      | some un =>
        rw [heu] at hfe
        simp at hfe
        obtain ⟨h1, h2⟩ := hfe
        subst h2
        exact ⟨h1, rfl⟩
  · intro p hp hpu hget
    rw [hshape]
    refine List.mem_map.mpr ⟨p, hp, ?_⟩
    rw [hget]
    have d1 : ¬ (BAR = CELSIUS_TEMPERATURE) := by decide
    simp [map_parameter, d1]

/-- Witness for C7 at a concrete view: the descriptor with value id 3 has no
unit of its own, the schema-diagram block maps 3 to the bar unit, and the
mapped view contains a Pressure parameter for it. -/
theorem c7_svg_unit_lookup_witness :
    Parameter.pressure 3 "p" "S" 3 ∈
      map_view ⟨"S", [⟨3, "p", 3, none, none⟩], some [⟨[⟨3, some BAR⟩, ⟨4, none⟩]⟩]⟩ :=
  (c7_svg_unit_lookup ⟨"S", [⟨3, "p", 3, none, none⟩], some [⟨[⟨3, some BAR⟩, ⟨4, none⟩]⟩]⟩
      [⟨[⟨3, some BAR⟩, ⟨4, none⟩]⟩] rfl).2.2
    ⟨3, "p", 3, none, none⟩ (List.mem_singleton.mpr rfl) rfl (by decide)

/-! ## Claim C5: values-endpoint error classification -/

/-- Claim C5, counterexample: a values-endpoint payload whose `errorMessage`
equals the read-parameter sentinel but which carries neither an error code nor
an error type does not raise `ParameterReadError` — `fetch_value` takes the
success path and returns the (empty) value list. -/
theorem c5_counterexample :
    (fetch_value_step ⟨none, none, none, false, none⟩
       ⟨none, none, some ERROR_READ_PARAMETER, some "la", some []⟩).1 =
      FetchValueResult.ok [] ∧
    (fetch_value_step ⟨none, none, none, false, none⟩
       ⟨none, none, some ERROR_READ_PARAMETER, some "la", some []⟩).1 ≠
      FetchValueResult.parameterReadError := by
  constructor
  · rfl
  · decide

/-- Claim C5, amended: for every values-endpoint payload that carries an error
code or an error type, an `errorMessage` equal to the read-parameter sentinel
raises `ParameterReadError` (and not `FetchFailed`), and a non-matching or
absent message raises `FetchFailed`; the client state is untouched either
way. -/
theorem c5_amended_error_classification (st : ClientState) (res : ValuesResponse)
    (herr : res.error_code.isSome = true ∨ res.error_type.isSome = true) :
    (res.error_message = some ERROR_READ_PARAMETER →
       fetch_value_step st res = (FetchValueResult.parameterReadError, st)) ∧
    (res.error_message ≠ some ERROR_READ_PARAMETER →
       fetch_value_step st res = (FetchValueResult.fetchFailed, st)) := by
  constructor
  · intro h
    unfold fetch_value_step
    rw [if_pos herr, if_pos h]
  · intro h
    unfold fetch_value_step
    rw [if_pos herr, if_neg h]

/-- Witness for C5 (amended) at a concrete error payload with an error code and
the sentinel message. -/
theorem c5_amended_error_classification_witness :
    fetch_value_step ⟨none, none, none, false, none⟩
        ⟨some 1, none, some ERROR_READ_PARAMETER, none, none⟩ =
      (FetchValueResult.parameterReadError, ⟨none, none, none, false, none⟩) :=
  (c5_amended_error_classification ⟨none, none, none, false, none⟩
      ⟨some 1, none, some ERROR_READ_PARAMETER, none, none⟩ (Or.inl rfl)).1 rfl

/-! ## Claim C10: values-endpoint success path -/

theorem filterMap_value_eq (vs : List RawValue) :
    vs.filterMap (fun v => v.value.map (fun x => Value.mk v.value_id x v.state)) =
      (vs.filter (fun v => v.value.isSome)).map
        (fun v => Value.mk v.value_id (v.value.getD 0) v.state) := by
  induction vs with
  | nil => rfl
  | cons v rest ih =>
    cases hv : v.value <;>
      simp [List.filterMap_cons, List.filter_cons, hv, ih, Option.getD]

/-- Claim C10: for every successful (error-free) values-endpoint response,
`fetch_value` returns one `Value` record per entry of the `Values` array that
carries a raw value field, in array order, silently omitting the entries
lacking it, and replaces the stored `last_access` by the response's
`LastAccess`. -/
theorem c10_fetch_value_success (st : ClientState) (res : ValuesResponse)
    (la : String) (vs : List RawValue)
    (hc : res.error_code = none) (ht : res.error_type = none)
    (hla : res.last_access = some la) (hvs : res.values = some vs) :
    fetch_value_step st res =
      (FetchValueResult.ok ((vs.filter (fun v => v.value.isSome)).map
         (fun v => Value.mk v.value_id (v.value.getD 0) v.state)),
       { st with last_access := some la }) := by
  unfold fetch_value_step
  rw [hc, ht, hla, hvs]
  simp [filterMap_value_eq]

/-- Witness for C10 at a concrete response: the entry lacking a raw value is
omitted, the others are kept in order, and `last_access` is updated. -/
theorem c10_fetch_value_success_witness :
    fetch_value_step ⟨none, none, some "old", false, none⟩
        ⟨none, none, none, some "new", some [⟨1, some 5, 0⟩, ⟨2, none, 1⟩, ⟨3, some 7, 2⟩]⟩ =
      (FetchValueResult.ok [⟨1, 5, 0⟩, ⟨3, 7, 2⟩],
       ⟨none, none, some "new", false, none⟩) := by
  have h := c10_fetch_value_success ⟨none, none, some "old", false, none⟩
    ⟨none, none, none, some "new", some [⟨1, some 5, 0⟩, ⟨2, none, 1⟩, ⟨3, some 7, 2⟩]⟩
    "new" [⟨1, some 5, 0⟩, ⟨2, none, 1⟩, ⟨3, some 7, 2⟩] rfl rfl rfl rfl
  rw [h]
  rfl

/-! ## Claim C2: the retried call's authorization header -/

/-- Claim C2: code divergence. At this input the first call answers 401 with
the client holding access token "oldtok"; re-authentication obtains "newtok",
yet line 77 merges the freshly built bearer header underneath the stale header
dict (`\x7b**bearer_header(new), **dict(headers)\x7d`, the second operand
winning), so the retried call is issued with the stale "Bearer oldtok"
authorization value instead of the claimed fresh one. -/
theorem c2_retry_reuses_stale_token :
    (request ⟨some ⟨"oldtok", false⟩, some 7, none, false, some 1000⟩
       ⟨0, ⟨"x", false⟩, 8, ⟨"newtok", false⟩, 9,
        ExecResult.ok ⟨401, "unauth"⟩, ExecResult.ok ⟨200, "okbody"⟩⟩ none).2.2 =
      [Event.execute [("Authorization", "Bearer oldtok")] (ExecResult.ok ⟨401, "unauth"⟩),
       Event.authToken ⟨"newtok", false⟩, Event.createSession 9,
       Event.execute [("Authorization", "Bearer oldtok")] (ExecResult.ok ⟨200, "okbody"⟩)] ∧
    ("Bearer oldtok" : String) ≠ "Bearer newtok" := by
  constructor
  · rfl
  · decide

/-! ## Helper lemmas on the request pipeline -/

theorem fireKeepalive_update (st : ClientState) (t : Tokens) (sid : Nat) (now : Int) :
    fireKeepalive { st with tokens := some t, session_id := some sid } now =
      fireKeepalive st now := rfl

theorem request_keepalive_trace (st : ClientState) (env : ReqEnv)
    (caller : Option (List (String × String))) :
    hasKeepalive (request st env caller).2.2 = fireKeepalive st env.now := by
  unfold request
  cases hna : needAuth st
  · dsimp only [Bool.cond_true, Bool.cond_false]
    cases hfk : fireKeepalive st env.now <;>
      dsimp only [Bool.cond_true, Bool.cond_false] <;>
      cases henv1 : env.resp1 with
      | fetchFailed => rfl
      | ok resp =>
        dsimp only
        by_cases hs : (resp.status = 401 ∨ resp.status = 500)
        · rw [if_pos hs] <;> cases henv2 : env.resp2 <;> rfl
        · rw [if_neg hs] <;> rfl
  · dsimp only [Bool.cond_true, Bool.cond_false]
    rw [fireKeepalive_update]
    cases hfk : fireKeepalive st env.now <;>
      dsimp only [Bool.cond_true, Bool.cond_false] <;>
      cases henv1 : env.resp1 with
      | fetchFailed => rfl
      | ok resp =>
        dsimp only
        by_cases hs : (resp.status = 401 ∨ resp.status = 500)
        · rw [if_pos hs] <;> cases henv2 : env.resp2 <;> rfl
        · rw [if_neg hs] <;> rfl

theorem request_last_session_refesh (st : ClientState) (env : ReqEnv)
    (caller : Option (List (String × String))) :
    (request st env caller).2.1.last_session_refesh =
      (bif fireKeepalive st env.now then some (env.now + 60)
       else st.last_session_refesh) := by
  unfold request
  cases hna : needAuth st
  · dsimp only [Bool.cond_true, Bool.cond_false]
    cases hfk : fireKeepalive st env.now <;>
      dsimp only [Bool.cond_true, Bool.cond_false] <;>
      cases henv1 : env.resp1 with
      | fetchFailed => rfl
      | ok resp =>
        dsimp only
        by_cases hs : (resp.status = 401 ∨ resp.status = 500)
        · rw [if_pos hs] <;> cases henv2 : env.resp2 <;> rfl
        · rw [if_neg hs] <;> rfl
  · dsimp only [Bool.cond_true, Bool.cond_false]
    rw [fireKeepalive_update]
    cases hfk : fireKeepalive st env.now <;>
      dsimp only [Bool.cond_true, Bool.cond_false] <;>
      cases henv1 : env.resp1 with
      | fetchFailed => rfl
      | ok resp =>
        dsimp only
        by_cases hs : (resp.status = 401 ∨ resp.status = 500)
        · rw [if_pos hs] <;> cases henv2 : env.resp2 <;> rfl
        · rw [if_neg hs] <;> rfl

theorem fireKeepalive_iff (st : ClientState) (now : Int) :
    fireKeepalive st now = true ↔
      (st.last_session_refesh = none ∨
       ∃ m, st.last_session_refesh = some m ∧ m ≤ now) := by
  cases h : st.last_session_refesh with
  | none => simp [fireKeepalive, h]
  | some m => simp [fireKeepalive, h]

theorem keepaliveTimes_lower_bound (envs : List ReqEnv) :
    ∀ (st : ClientState) (m : Int), st.last_session_refesh = some m →
      ∀ t ∈ keepaliveTimes st envs, m ≤ t := by
  induction envs with
  | nil =>
    intro st m hm t ht
    simp [keepaliveTimes] at ht
  | cons e rest ih =>
    intro st m hm t ht
    rw [keepaliveTimes] at ht
    rw [request_keepalive_trace] at ht
    by_cases hf : fireKeepalive st e.now = true
    · rw [hf] at ht
      rw [Bool.cond_true] at ht
      have hmle : m ≤ e.now := by
        rcases (fireKeepalive_iff st e.now).mp hf with h | ⟨m', hm', hle⟩
        · rw [hm] at h
          cases h
        · rw [hm] at hm'
          cases hm'
          exact hle
      rcases List.mem_append.mp ht with h | h
      · rcases List.mem_singleton.mp h with rfl
        · exact hmle
      · have hst : (request st e none).2.1.last_session_refesh = some (e.now + 60) := by
          rw [request_last_session_refesh, hf]
          rfl
        have := ih (request st e none).2.1 (e.now + 60) hst t h
        omega
    · rw [Bool.not_eq_true] at hf
      rw [hf] at ht
      rw [Bool.cond_false] at ht
      have hst : (request st e none).2.1.last_session_refesh = some m := by
        rw [request_last_session_refesh, hf]
        exact hm
      rcases List.mem_append.mp ht with h | h
      · cases h
      · exact ih (request st e none).2.1 m hst t h

theorem keepaliveTimes_chain (envs : List ReqEnv) :
    ∀ st : ClientState, List.Chain' (fun a b => a + 60 ≤ b) (keepaliveTimes st envs) := by
  induction envs with
  | nil =>
    intro st
    simp [keepaliveTimes]
  | cons e rest ih =>
    intro st
    rw [keepaliveTimes, request_keepalive_trace]
    by_cases hf : fireKeepalive st e.now = true
    · rw [hf]
      rw [Bool.cond_true]
      have hst : (request st e none).2.1.last_session_refesh = some (e.now + 60) := by
        rw [request_last_session_refesh, hf]
        rfl
      rw [List.singleton_append, List.chain'_cons']
      refine ⟨?_, ih (request st e none).2.1⟩
      intro y hy
      exact keepaliveTimes_lower_bound rest (request st e none).2.1 (e.now + 60) hst y
        (List.mem_of_mem_head? hy)
    · rw [Bool.not_eq_true] at hf
      rw [hf]
      rw [Bool.cond_false, List.nil_append]
      exact ih (request st e none).2.1

/-! ## Claim C3: retry outcome and the failure flag -/

/-- Claim C3, counterexample: a request entered with the failure flag already
true whose first response is 401 and whose retry succeeds returns the retry's
body, but the failure flag stays true — the retry-success path of `__request`
never clears `last_failed`, contradicting the claim that it is false
afterwards. -/
theorem c3_counterexample :
    (request ⟨some ⟨"t", false⟩, some 7, none, true, some 1000⟩
       ⟨0, ⟨"x", false⟩, 8, ⟨"newtok", false⟩, 9,
        ExecResult.ok ⟨401, "unauth"⟩, ExecResult.ok ⟨200, "okbody"⟩⟩ none).1 =
      Except.ok "okbody" ∧
    (request ⟨some ⟨"t", false⟩, some 7, none, true, some 1000⟩
       ⟨0, ⟨"x", false⟩, 8, ⟨"newtok", false⟩, 9,
        ExecResult.ok ⟨401, "unauth"⟩, ExecResult.ok ⟨200, "okbody"⟩⟩ none).2.1.last_failed =
      true := by
  constructor <;> rfl

/-- Claim C3, amended: for a request whose first response is exactly 401 or
500, a successful retry returns the retry's parsed body and leaves the failure
flag unchanged (so it is false afterwards only when it was false before); a
retry that raises the fetch failure sets the flag to true and propagates the
error. -/
theorem c3_amended_retry_flag (st : ClientState) (env : ReqEnv)
    (caller : Option (List (String × String)))
    (r : Response) (h1 : env.resp1 = ExecResult.ok r) (h2 : r.status = 401 ∨ r.status = 500) :
    (∀ r2, env.resp2 = ExecResult.ok r2 →
       (request st env caller).1 = Except.ok r2.body ∧
       (request st env caller).2.1.last_failed = st.last_failed) ∧
    (env.resp2 = ExecResult.fetchFailed →
       (request st env caller).1 = Except.error () ∧
       (request st env caller).2.1.last_failed = true) := by
  unfold request
  rw [h1]
  constructor
  · intro r2 hr2
    rw [hr2]
    dsimp only
    rw [if_pos h2]
    constructor
    · rfl
    · dsimp only
      simp only [Bool.apply_cond ClientState.last_failed, Bool.cond_self]
  · intro hr2
    rw [hr2]
    dsimp only
    rw [if_pos h2]
    exact ⟨rfl, rfl⟩

/-- Witness for C3 (amended) at a concrete input: first response 401, retry
raising the fetch failure; the outcome is the propagated error and the flag is
set. -/
theorem c3_amended_retry_flag_witness :
    (request ⟨some ⟨"t", false⟩, some 7, none, false, some 1000⟩
       ⟨0, ⟨"x", false⟩, 8, ⟨"newtok", false⟩, 9,
        ExecResult.ok ⟨401, "unauth"⟩, ExecResult.fetchFailed⟩ none).1 =
      Except.error () ∧
    (request ⟨some ⟨"t", false⟩, some 7, none, false, some 1000⟩
       ⟨0, ⟨"x", false⟩, 8, ⟨"newtok", false⟩, 9,
        ExecResult.ok ⟨401, "unauth"⟩, ExecResult.fetchFailed⟩ none).2.1.last_failed = true :=
  (c3_amended_retry_flag ⟨some ⟨"t", false⟩, some 7, none, false, some 1000⟩
      ⟨0, ⟨"x", false⟩, 8, ⟨"newtok", false⟩, 9,
       ExecResult.ok ⟨401, "unauth"⟩, ExecResult.fetchFailed⟩ none
      ⟨401, "unauth"⟩ rfl (Or.inl rfl)).2 rfl

/-! ## Claim C8: authentication before the first HTTP call -/

/-- Claim C8: a request issued while tokens are null or expired performs
exactly one re-authentication immediately followed by one session-open before
the first HTTP call (the trace starts with the token event and the session
event, and no further auth or session-open event precedes the first execute);
a request issued with valid tokens performs none before the first HTTP
attempt. -/
theorem c8_auth_before_first_call (st : ClientState) (env : ReqEnv)
    (caller : Option (List (String × String))) :
    (needAuth st = true →
       ((request st env caller).2.2.takeWhile (fun e => !e.isExecute)).countP
         Event.isAuthToken = 1 ∧
       ((request st env caller).2.2.takeWhile (fun e => !e.isExecute)).countP
         Event.isCreateSession = 1 ∧
       ∃ rest, (request st env caller).2.2 =
         Event.authToken env.authToken :: Event.createSession env.sessionId :: rest) ∧
    (needAuth st = false →
       ((request st env caller).2.2.takeWhile (fun e => !e.isExecute)).countP
         Event.isAuthToken = 0 ∧
       ((request st env caller).2.2.takeWhile (fun e => !e.isExecute)).countP
         Event.isCreateSession = 0) := by
  constructor
  · intro hna
    unfold request
    rw [hna]
    dsimp only [Bool.cond_true, Bool.cond_false]
    rw [fireKeepalive_update]
    cases hfk : fireKeepalive st env.now <;>
      dsimp only [Bool.cond_true, Bool.cond_false] <;>
      cases henv1 : env.resp1 with
      | fetchFailed => exact ⟨rfl, rfl, _, rfl⟩
      | ok resp =>
        dsimp only
        by_cases hs : (resp.status = 401 ∨ resp.status = 500)
        · rw [if_pos hs]
          cases henv2 : env.resp2 <;> exact ⟨rfl, rfl, _, rfl⟩
        · rw [if_neg hs]
          exact ⟨rfl, rfl, _, rfl⟩
  · intro hna
    unfold request
    rw [hna]
    dsimp only [Bool.cond_true, Bool.cond_false]
    cases hfk : fireKeepalive st env.now <;>
      dsimp only [Bool.cond_true, Bool.cond_false] <;>
      cases henv1 : env.resp1 with
      | fetchFailed => exact ⟨rfl, rfl⟩
      | ok resp =>
        dsimp only
        by_cases hs : (resp.status = 401 ∨ resp.status = 500)
        · rw [if_pos hs]
          cases henv2 : env.resp2 <;> exact ⟨rfl, rfl⟩
        · rw [if_neg hs]
          exact ⟨rfl, rfl⟩

/-- Witness for C8 at concrete inputs: a client with no tokens starts its
trace with the auth and session-open events; a client with valid tokens has no
auth event before its first execute. -/
theorem c8_auth_before_first_call_witness :
    (∃ rest, (request ⟨none, none, none, false, none⟩
       ⟨5, ⟨"a", false⟩, 2, ⟨"b", false⟩, 3,
        ExecResult.ok ⟨200, "x"⟩, ExecResult.ok ⟨200, "y"⟩⟩ none).2.2 =
       Event.authToken ⟨"a", false⟩ :: Event.createSession 2 :: rest) ∧
    ((request ⟨some ⟨"t", false⟩, some 1, none, false, none⟩
       ⟨5, ⟨"a", false⟩, 2, ⟨"b", false⟩, 3,
        ExecResult.ok ⟨200, "x"⟩, ExecResult.ok ⟨200, "y"⟩⟩ none).2.2.takeWhile
       (fun e => !e.isExecute)).countP Event.isAuthToken = 0 :=
  ⟨((c8_auth_before_first_call ⟨none, none, none, false, none⟩
       ⟨5, ⟨"a", false⟩, 2, ⟨"b", false⟩, 3,
        ExecResult.ok ⟨200, "x"⟩, ExecResult.ok ⟨200, "y"⟩⟩ none).1 rfl).2.2,
   ((c8_auth_before_first_call ⟨some ⟨"t", false⟩, some 1, none, false, none⟩
       ⟨5, ⟨"a", false⟩, 2, ⟨"b", false⟩, 3,
        ExecResult.ok ⟨200, "x"⟩, ExecResult.ok ⟨200, "y"⟩⟩ none).2 rfl).1⟩

/-! ## Claim C9: keepalive throttling -/

/-- Claim C9: a request fires the session keepalive exactly when the stored
next-allowed-refresh timestamp is null or the current time has reached it; a
firing sets the timestamp to now plus 60 seconds and a non-firing request
leaves it unchanged; consequently, over any sequence of requests, consecutive
keepalive firing times are at least 60 seconds apart, so the keepalive fires
at most once per 60-second window regardless of request volume. -/
theorem c9_keepalive_throttle :
    (∀ (st : ClientState) (env : ReqEnv) (caller : Option (List (String × String))),
       (hasKeepalive (request st env caller).2.2 = true ↔
          (st.last_session_refesh = none ∨
           ∃ m, st.last_session_refesh = some m ∧ m ≤ env.now)) ∧
       (hasKeepalive (request st env caller).2.2 = true →
          (request st env caller).2.1.last_session_refesh = some (env.now + 60)) ∧
       (hasKeepalive (request st env caller).2.2 = false →
          (request st env caller).2.1.last_session_refesh = st.last_session_refesh)) ∧
    (∀ (st : ClientState) (envs : List ReqEnv),
       List.Chain' (fun a b => a + 60 ≤ b) (keepaliveTimes st envs)) := by
  constructor
  · intro st env caller
    refine ⟨?_, ?_, ?_⟩
    · rw [request_keepalive_trace]
      exact fireKeepalive_iff st env.now
    · intro h
      rw [request_keepalive_trace] at h
      rw [request_last_session_refesh, h, Bool.cond_true]
    · intro h
      rw [request_keepalive_trace] at h
      rw [request_last_session_refesh, h, Bool.cond_false]
  · intro st envs
    exact keepaliveTimes_chain envs st

/-- Witness for C9 at a concrete input: a client whose refresh timestamp is
unset fires the keepalive and stores now plus 60. -/
theorem c9_keepalive_throttle_witness :
    (request ⟨some ⟨"t", false⟩, some 1, none, false, none⟩
       ⟨5, ⟨"a", false⟩, 2, ⟨"b", false⟩, 3,
        ExecResult.ok ⟨200, "x"⟩, ExecResult.ok ⟨200, "y"⟩⟩ none).2.1.last_session_refesh =
      some (5 + 60) :=
  ((c9_keepalive_throttle.1 ⟨some ⟨"t", false⟩, some 1, none, false, none⟩
      ⟨5, ⟨"a", false⟩, 2, ⟨"b", false⟩, 3,
       ExecResult.ok ⟨200, "x"⟩, ExecResult.ok ⟨200, "y"⟩⟩ none).2.1 rfl)

/-! ## Helper lemmas on the flattening pass -/

theorem flattenSub_spec (l : List Parameter) :
    ∀ (ids : List Nat) (names : List String),
      (∀ q ∈ (flattenSub l ids names).1, q ∈ l) ∧
      (∀ q ∈ (flattenSub l ids names).1, q.value_id ∉ ids) ∧
      (∀ q ∈ (flattenSub l ids names).1, q.name ∉ names) ∧
      (flattenSub l ids names).2 = ids ++ (flattenSub l ids names).1.map Parameter.value_id ∧
      ((flattenSub l ids names).1.map Parameter.value_id).Nodup ∧
      ((flattenSub l ids names).1.map Parameter.name).Nodup := by
  induction l with
  | nil =>
    intro ids names
    simp [flattenSub]
  | cons v rest ih =>
    intro ids names
    by_cases hc : v.value_id ∉ ids ∧ v.name ∉ names
    · have heq : flattenSub (v :: rest) ids names =
          (v :: (flattenSub rest (ids ++ [v.value_id]) (names ++ [v.name])).1,
           (flattenSub rest (ids ++ [v.value_id]) (names ++ [v.name])).2) := by
        simp only [flattenSub]
        rw [if_pos hc]
      obtain ⟨h1, h2, h3, h4, h5, h6⟩ := ih (ids ++ [v.value_id]) (names ++ [v.name])
      rw [heq]
      refine ⟨?_, ?_, ?_, ?_, ?_, ?_⟩
      · intro q hq
        rcases List.mem_cons.mp hq with rfl | hq'
        · exact List.mem_cons_self q rest
        · exact List.mem_cons_of_mem v (h1 q hq')
      · intro q hq
        rcases List.mem_cons.mp hq with rfl | hq'
        · exact hc.1
        · intro hin
          exact h2 q hq' (List.mem_append.mpr (Or.inl hin))
      · intro q hq
        rcases List.mem_cons.mp hq with rfl | hq'
        · exact hc.2
        · intro hin
          exact h3 q hq' (List.mem_append.mpr (Or.inl hin))
      · rw [List.map_cons, h4, List.append_assoc, List.singleton_append]
      · rw [List.map_cons, List.nodup_cons]
        refine ⟨?_, h5⟩
        intro hmem
        rcases List.mem_map.mp hmem with ⟨q, hq, hqid⟩
        exact h2 q hq (List.mem_append.mpr (Or.inr (List.mem_singleton.mpr hqid)))
      · rw [List.map_cons, List.nodup_cons]
        refine ⟨?_, h6⟩
        intro hmem
        rcases List.mem_map.mp hmem with ⟨q, hq, hqn⟩
        exact h3 q hq (List.mem_append.mpr (Or.inr (List.mem_singleton.mpr hqn)))
    · have heq : flattenSub (v :: rest) ids names = flattenSub rest ids names := by
        simp only [flattenSub]
        rw [if_neg hc]
      obtain ⟨h1, h2, h3, h4, h5, h6⟩ := ih ids names
      rw [heq]
      exact ⟨fun q hq => List.mem_cons_of_mem v (h1 q hq), h2, h3, h4, h5, h6⟩

theorem flattenViews_spec (subs : List (List Parameter)) :
    ∀ ids : List Nat,
      ((flattenViews subs ids).map Parameter.value_id).Nodup ∧
      (∀ q ∈ flattenViews subs ids, q.value_id ∉ ids) := by
  induction subs with
  | nil =>
    intro ids
    simp [flattenViews]
  | cons sub rest ih =>
    intro ids
    have heq : flattenViews (sub :: rest) ids =
        (flattenSub sub ids []).1 ++ flattenViews rest (flattenSub sub ids []).2 := by
      simp only [flattenViews]
    obtain ⟨s1, s2, s3, s4, s5, s6⟩ := flattenSub_spec sub ids []
    obtain ⟨r1, r2⟩ := ih (flattenSub sub ids []).2
    rw [heq]
    constructor
    · rw [List.map_append]
      refine List.Nodup.append s5 r1 ?_
      intro a ha hb
      rcases List.mem_map.mp hb with ⟨q, hq, hqid⟩
      have hnotin := r2 q hq
      rw [s4] at hnotin
      exact hnotin (List.mem_append.mpr (Or.inr (hqid ▸ ha)))
    · intro q hq
      rcases List.mem_append.mp hq with h | h
      · exact s2 q h
      · have hnotin := r2 q h
        rw [s4] at hnotin
        intro hin
        exact hnotin (List.mem_append.mpr (Or.inl hin))

theorem flattenSub_keeps_all (l : List Parameter) :
    ∀ (ids : List Nat) (names : List String),
      (∀ q ∈ l, q.value_id ∉ ids) → (∀ q ∈ l, q.name ∉ names) →
      (l.map Parameter.value_id).Nodup → (l.map Parameter.name).Nodup →
      flattenSub l ids names = (l, ids ++ l.map Parameter.value_id) := by
  induction l with
  | nil =>
    intro ids names _ _ _ _
    simp [flattenSub]
  | cons v rest ih =>
    intro ids names h1 h2 h3 h4
    have hc : v.value_id ∉ ids ∧ v.name ∉ names :=
      ⟨h1 v (List.mem_cons_self v rest), h2 v (List.mem_cons_self v rest)⟩
    have heq : flattenSub (v :: rest) ids names =
        (v :: (flattenSub rest (ids ++ [v.value_id]) (names ++ [v.name])).1,
         (flattenSub rest (ids ++ [v.value_id]) (names ++ [v.name])).2) := by
      simp only [flattenSub]
      rw [if_pos hc]
    rw [List.map_cons, List.nodup_cons] at h3 h4
    have hrec := ih (ids ++ [v.value_id]) (names ++ [v.name]) ?_ ?_ h3.2 h4.2
    · rw [heq, hrec]
      rw [List.map_cons, List.append_assoc, List.singleton_append]
    · intro q hq hin
      rcases List.mem_append.mp hin with h | h
      · exact h1 q (List.mem_cons_of_mem v hq) h
      · exact h3.1 (List.mem_map.mpr ⟨q, hq, List.mem_singleton.mp h⟩)
    · intro q hq hin
      rcases List.mem_append.mp hin with h | h
      · exact h2 q (List.mem_cons_of_mem v hq) h
      · exact h4.1 (List.mem_map.mpr ⟨q, hq, List.mem_singleton.mp h⟩)

theorem map_view_shape (V : RawView) :
    ∃ f : RawParam → Parameter,
      map_view V = V.parameter_descriptors.map f ∧
      ∀ p, (f p).value_id = p.value_id ∧ (f p).name = p.name ∧
        (f p).parent = V.tab_name := by
  cases hv : V.svg_heating_schema_config_devices with
  | none =>
    refine ⟨fun p => map_parameter p V.tab_name, by simp [map_view, hv], ?_⟩
    intro p
    exact ⟨map_parameter_value_id p V.tab_name, map_parameter_name p V.tab_name,
      map_parameter_parent p V.tab_name⟩
  | some devices =>
    refine ⟨fun param =>
      match dictGet (svgUnits devices) param.value_id with
      | some un => map_parameter { param with unit := some un } V.tab_name
      | none => map_parameter param V.tab_name, by simp [map_view, hv], ?_⟩
    intro p
    rcases hg : dictGet (svgUnits devices) p.value_id with _ | un <;> simp only [hg]
    · exact ⟨map_parameter_value_id p V.tab_name, map_parameter_name p V.tab_name,
        map_parameter_parent p V.tab_name⟩
    · exact ⟨map_parameter_value_id { p with unit := some un } V.tab_name,
        map_parameter_name { p with unit := some un } V.tab_name,
        map_parameter_parent { p with unit := some un } V.tab_name⟩

/-! ## Claim C1: uniqueness in the flattened list -/

/-- Claim C1, counterexample: two views each holding one parameter named "x"
with distinct value ids; because `distinct_names` is re-initialised for every
sublist while `distinct_ids` persists, both survive the flatten pass and the
flattened list carries the name "x" twice, refuting global name uniqueness. -/
theorem c1_counterexample :
    (fetch_parameters_flatten
       [⟨"T1", [⟨1, "x", 1, none, none⟩], none⟩,
        ⟨"T2", [⟨2, "x", 2, none, none⟩], none⟩]).map Parameter.name = ["x", "x"] ∧
    ¬ ((fetch_parameters_flatten
       [⟨"T1", [⟨1, "x", 1, none, none⟩], none⟩,
        ⟨"T2", [⟨2, "x", 2, none, none⟩], none⟩]).map Parameter.name).Nodup := by
  constructor
  · rfl
  · decide

/-- Claim C1, amended: for every input view list the flattened parameter list
contains no two parameters with the same value id (uniqueness of `value_id`
holds globally), while name uniqueness holds only among the parameters one
sublist contributes in a single flatten pass, not globally. -/
theorem c1_amended_uniqueness :
    (∀ tab_views : List RawView,
       ((fetch_parameters_flatten tab_views).map Parameter.value_id).Nodup) ∧
    (∀ (sub : List Parameter) (ids : List Nat),
       ((flattenSub sub ids []).1.map Parameter.name).Nodup) := by
  constructor
  · intro tab_views
    exact (flattenViews_spec ((tab_views.map map_view).reverse) []).1
  · intro sub ids
    exact (flattenSub_spec sub ids []).2.2.2.2.2

/-! ## Claim C4: last tab wins on value id collisions -/

/-- Claim C4, counterexample: view A holds the parameter (1, "b"); the later
view B holds (5, "a") and (1, "a"). B's parameter with value id 1 is discarded
by the per-view name dedup against (5, "a"), so A's parameter with value id 1
survives: the flattened result contains A's parameter and not B's, refuting
the claim that for any cross-tab value id collision the originally last tab
wins. -/
theorem c4_counterexample :
    Parameter.simple 1 "b" "A" 1 ∈ fetch_parameters_flatten
      [⟨"A", [⟨1, "b", 1, none, none⟩], none⟩,
       ⟨"B", [⟨5, "a", 5, none, none⟩, ⟨1, "a", 1, none, none⟩], none⟩] ∧
    Parameter.simple 1 "a" "B" 1 ∉ fetch_parameters_flatten
      [⟨"A", [⟨1, "b", 1, none, none⟩], none⟩,
       ⟨"B", [⟨5, "a", 5, none, none⟩, ⟨1, "a", 1, none, none⟩], none⟩] := by
  constructor
  · decide
  · decide

/-- Claim C4, amended: given views A (earlier) and B (later) where B's
descriptors have pairwise-distinct value ids and pairwise-distinct names, if A
contains a descriptor pA and B a descriptor pB with the same value id and
different names, then the flattened result of [A, B] contains B's mapped
parameter (same value id and name, parented to B's tab) and no parameter with
pA's value id and name. -/
theorem c4_amended_last_tab_wins (A B : RawView) (pA pB : RawParam)
    (hA : pA ∈ A.parameter_descriptors) (hB : pB ∈ B.parameter_descriptors)
    (hid : pA.value_id = pB.value_id) (hname : pA.name ≠ pB.name)
    (hBids : (B.parameter_descriptors.map RawParam.value_id).Nodup)
    (hBnames : (B.parameter_descriptors.map RawParam.name).Nodup) :
    (∃ q ∈ fetch_parameters_flatten [A, B],
       q.value_id = pB.value_id ∧ q.name = pB.name ∧ q.parent = B.tab_name) ∧
    (∀ q ∈ fetch_parameters_flatten [A, B],
       ¬ (q.value_id = pA.value_id ∧ q.name = pA.name)) := by
  obtain ⟨f, hfB, hfprop⟩ := map_view_shape B
  have hBid2 : (map_view B).map Parameter.value_id =
      B.parameter_descriptors.map RawParam.value_id := by
    rw [hfB, List.map_map]
    exact List.map_congr_left (fun p _ => (hfprop p).1)
  have hBname2 : (map_view B).map Parameter.name =
      B.parameter_descriptors.map RawParam.name := by
    rw [hfB, List.map_map]
    exact List.map_congr_left (fun p _ => (hfprop p).2.1)
  have hBidsN : ((map_view B).map Parameter.value_id).Nodup := by
    rw [hBid2]
    exact hBids
  have hBnamesN : ((map_view B).map Parameter.name).Nodup := by
    rw [hBname2]
    exact hBnames
  have hff : fetch_parameters_flatten [A, B] =
      (flattenSub (map_view B) [] []).1 ++
        ((flattenSub (map_view A) (flattenSub (map_view B) [] []).2 []).1 ++ []) := rfl
  rw [List.append_nil] at hff
  have hkeep : flattenSub (map_view B) [] [] =
      (map_view B, [] ++ (map_view B).map Parameter.value_id) :=
    flattenSub_keeps_all (map_view B) [] [] (by simp) (by simp) hBidsN hBnamesN
  have hids2 : (flattenSub (map_view B) [] []).2 = (map_view B).map Parameter.value_id := by
    rw [hkeep]
    rfl
  have hqBmem : f pB ∈ map_view B := by
    rw [hfB]
    exact List.mem_map_of_mem f hB
  constructor
  · refine ⟨f pB, ?_, (hfprop pB).1, (hfprop pB).2.1, (hfprop pB).2.2⟩
    rw [hff]
    apply List.mem_append.mpr
    left
    rw [hkeep]
    exact hqBmem
  · intro q hq hcontra
    rw [hff] at hq
    rcases List.mem_append.mp hq with h | h
    · rw [hkeep] at h
      have hqeq : q = f pB := by
        refine List.inj_on_of_nodup_map hBidsN h hqBmem ?_
        rw [hcontra.1, hid, (hfprop pB).1]
      have : pA.name = pB.name := by
        rw [← hcontra.2, hqeq, (hfprop pB).2.1]
      exact hname this
    · have hspec := (flattenSub_spec (map_view A) (flattenSub (map_view B) [] []).2 []).2.1
      apply hspec q h
      rw [hids2, hcontra.1, hid, ← (hfprop pB).1]
      exact List.mem_map_of_mem Parameter.value_id hqBmem

/-- Witness for C4 (amended) at concrete singleton views: B's parameter
(1, "a") wins over A's (1, "b"). -/
theorem c4_amended_last_tab_wins_witness :
    (∃ q ∈ fetch_parameters_flatten
        [⟨"A", [⟨1, "b", 1, none, none⟩], none⟩, ⟨"B", [⟨1, "a", 2, none, none⟩], none⟩],
       q.value_id = 1 ∧ q.name = "a" ∧ q.parent = "B") ∧
    (∀ q ∈ fetch_parameters_flatten
        [⟨"A", [⟨1, "b", 1, none, none⟩], none⟩, ⟨"B", [⟨1, "a", 2, none, none⟩], none⟩],
       ¬ (q.value_id = 1 ∧ q.name = "b")) :=
  c4_amended_last_tab_wins ⟨"A", [⟨1, "b", 1, none, none⟩], none⟩
    ⟨"B", [⟨1, "a", 2, none, none⟩], none⟩ ⟨1, "b", 1, none, none⟩ ⟨1, "a", 2, none, none⟩
    (List.mem_singleton.mpr rfl) (List.mem_singleton.mpr rfl) rfl (by decide)
    (by decide) (by decide)
